import Mathlib

/-!
Shallow embedding of `src/scraper.py` (a Selenium-driven news scraper).

The browser automation layer is modelled as data: each DOM read that the
source performs inside a try/except is represented by a value that is either
an error (the read raised and the source skips the element) or the data the
read would return.  Selenium `element.text` always returns a string, and
`get_attribute("href")` returns a string or `None`, hence `Option String`.
The advisory `WebDriverWait` calls swallow `TimeoutException` and change no
observable state, so they have no counterpart in the model.
-/

namespace Scraper

/-- One anchor element as read in a scan loop: `err` means some read on the
element raised (the source catches the exception and skips the element),
`ok text href` carries the element text and the value of the href attribute. -/
inductive LinkRead where
  | err
  | ok (text : String) (href : Option String)
deriving DecidableEq

/-- One `<article>` container as processed by tier 1 of
`extract_top_articles_on_category`: `err` means the link lookup (or a read on
the found link) raised, so the container is skipped by the outer `except`;
`ok href linkText heading` carries the first `a[href]` child link href, the
link text, and the result of the inner heading lookup (`none` when the
heading lookup raised, `some s` when it returned an element with raw text `s`). -/
inductive ArtContainer where
  | err
  | ok (href : Option String) (linkText : String) (heading : Option String)
deriving DecidableEq

/-- Outcome of `driver.find_element(By.CSS_SELECTOR, sel)` plus the text read
on the result: `noSuch` is `NoSuchElementException`, `err` any other raise,
`found text` a successful read. -/
inductive SelRes where
  | noSuch
  | err
  | found (text : String)
deriving DecidableEq

/-- An article page as seen by `fetch_first_paragraph`: whether `driver.get`
succeeds, and the selector outcomes for CSS lookups on the page. -/
structure ArticlePage where
  navOk : Bool
  find : String → SelRes

/-- A category page as seen by `extract_top_articles_on_category`: whether
`driver.get` succeeds, plus the three element collections the three tiers
query (`article` tags, the `//main//a[.//h1 or .//h2 or .//h3]` links, and
all `a` tags of the page). -/
structure CatPage where
  navOk : Bool
  articles : List ArtContainer
  headingLinks : List LinkRead
  longLinks : List LinkRead

/-- The whole browser world one run observes: whether `driver.get(BASE_URL)`
in `find_category_url` raises, the homepage anchors, and the pages behind
each URL. -/
structure World where
  homeNavOk : Bool
  homeAnchors : List LinkRead
  cat : String → CatPage
  art : String → ArticlePage

/-- One element of the `rows` list built by
`extract_top_articles_on_category`: the dict
`{"title": title, "summary": summary or "", "url": href}`.  The stored title
is the candidate pair component, which in Python can in principle be `None`,
hence `Option String`. -/
structure Row where
  title : Option String
  summary : String
  url : String
deriving DecidableEq

/-- One element of the `aggregated` list built by `main`:
`{"category": item, "title": r.get("title", ""), ...}`.  The `get` calls
return the stored values (the keys are always present), so `title` keeps the
`Option String` type of the row. -/
structure Record where
  category : String
  title : Option String
  summary : String
  url : String
deriving DecidableEq

/-- Observable outcome of one `main` run: whether an exception escaped the
category loop, whether the `finally` block attempted `driver.quit()` (its own
errors are swallowed by `try: driver.quit() except Exception: pass`), the
accumulated records, and the argument of each `write_csv` call. -/
structure MainOutcome where
  crashed : Bool
  releaseAttempted : Bool
  aggregated : List Record
  writes : List (List Record)
deriving DecidableEq

/-- A candidate pair `(title, href)` as appended to `candidates`. -/
abbrev Cand := Option String × Option String

/-- Python whitespace test restricted to the ASCII whitespace characters
(enough for every string this development evaluates). -/
def pyIsSpace (c : Char) : Bool :=
  c = ' ' || c = '\t' || c = '\n' || c = '\r' || c = '\x0b' || c = '\x0c'

/-- Python `s.lower()` (ASCII case mapping). -/
def pyLower (s : String) : String := String.mk (s.toList.map Char.toLower)

/-- Python `s.strip()`. -/
def pyStrip (s : String) : String :=
  String.mk (((s.toList.dropWhile pyIsSpace).reverse.dropWhile pyIsSpace).reverse)

/-- Python `s.startswith(pre)`. -/
def pyStartsWith (s pre : String) : Bool := pre.toList.isPrefixOf s.toList

/-- Python `s.split("\\n")[0]`: the text up to the first line break. -/
def pyFirstLine (s : String) : String :=
  String.mk (s.toList.takeWhile (fun c => c ≠ '\n'))

/-- Python `s[:n]` for nonnegative `n`. -/
def pyTake (s : String) (n : Nat) : String := String.mk (s.toList.take n)

/-- Python `len(s)` (code points). -/
def pyLen (s : String) : Nat := s.toList.length

/-- Python substring test `needle in hay` on lists of characters. -/
def hasInfix : List Char → List Char → Bool
  | needle, [] => needle.isEmpty
  | needle, c :: rest => needle.isPrefixOf (c :: rest) || hasInfix needle rest

/-- Python substring test `needle in hay` on strings. -/
def strContainsSub (hay needle : String) : Bool :=
  hasInfix needle.toList hay.toList

/-- Python truthiness of an optional string: `None` and the empty string are
falsy. -/
def pyTruthy : Option String → Bool
  | none => false
  | some s => s != ""

/-- Python `a or b` on optional strings. -/
def pyOrStr (a b : Option String) : Option String :=
  if pyTruthy a then a else b

/-- The homepage anchor scan of `find_category_url` (lines 117-132): skip
elements that raised, skip empty visible text, and on a text match return the
href when it is truthy; a match without a truthy href only resets the dead
`best` variable and the scan continues.  The final `return best` always
returns `None`. -/
def scanAnchors (needle : String) : List LinkRead → Option String
  | [] => none
  | LinkRead.err :: rest => scanAnchors needle rest
  | LinkRead.ok text href :: rest =>
    let t := pyStrip text
    if t = "" then scanAnchors needle rest
    else if strContainsSub (pyLower t) needle then
      match href with
      | some h => if h = "" then scanAnchors needle rest else some h
      | none => scanAnchors needle rest
    else scanAnchors needle rest

/-- `find_category_url` (lines 100-132).  The `driver.get(BASE_URL)` call is
not inside any `try`, so when navigation raises the exception propagates to
the caller: modelled by the `Except` error.  The http check happens before
navigation, so an http input never touches the driver. -/
def find_category_url (homeNavOk : Bool) (anchors : List LinkRead)
    (category_name : String) : Except Unit (Option String) :=
  if pyStartsWith (pyLower category_name) "http" then Except.ok (some category_name)
  else if homeNavOk then Except.ok (scanAnchors (pyLower (pyStrip category_name)) anchors)
  else Except.error ()

/-- The fixed selector list of `fetch_first_paragraph` (line 215). -/
def selectors : List String :=
  ["article p", ".entry-content p", ".post-content p", "main p", "p"]

/-- The selector loop of `fetch_first_paragraph` (lines 216-227): both
exception kinds continue with the next selector, and a found element whose
stripped text is empty also falls through to the next selector (the `return`
is guarded by `if text:`). -/
def fetchLoop (find : String → SelRes) : List String → Option String
  | [] => none
  | sel :: rest =>
    match find sel with
    | SelRes.found rawText =>
      let text := pyStrip rawText
      if text ≠ "" then some (pyTake (pyFirstLine text) 1000)
      else fetchLoop find rest
    | SelRes.noSuch => fetchLoop find rest
    | SelRes.err => fetchLoop find rest

/-- `fetch_first_paragraph` (lines 204-227): a navigation failure returns
`None` immediately, otherwise the selector loop runs. -/
def fetch_first_paragraph (pg : ArticlePage) : Option String :=
  if pg.navOk then fetchLoop pg.find selectors else none

/-- Tier 1 processing of one `<article>` container (lines 151-166):
`title = a.text.strip() if a.text else None`, falling back to the heading
text, and the appended pair is `(title or href, href)`. -/
def candOfArticle : ArtContainer → Option Cand
  | ArtContainer.err => none
  | ArtContainer.ok href linkText heading =>
    let title0 : Option String := if linkText = "" then none else some (pyStrip linkText)
    let title1 : Option String :=
      if pyTruthy title0 then title0 else heading.map pyStrip
    some (pyOrStr title1 href, href)

/-- Tier 2 processing of one heading link (lines 170-177):
`title = a.text.strip() or None` and the appended pair is
`(title or href, href)`. -/
def candOfHeadingLink : LinkRead → Option Cand
  | LinkRead.err => none
  | LinkRead.ok text href =>
    let title : Option String := if pyStrip text = "" then none else some (pyStrip text)
    some (pyOrStr title href, href)

/-- Tier 3 processing of one page link (lines 181-189): kept only when the
stripped text is truthy, the href is truthy, and the text is longer than 20
characters. -/
def candOfLongLink : LinkRead → Option Cand
  | LinkRead.err => none
  | LinkRead.ok text href =>
    let t := pyStrip text
    match href with
    | some h => if t ≠ "" ∧ h ≠ "" ∧ 20 < pyLen t then some (some t, some h) else none
    | none => none

/-- The imperative append of one optional candidate to the growing
`candidates` list. -/
def appendFold (g : α → Option Cand) (l : List α) : List Cand :=
  l.foldl (fun acc a => acc ++ (g a).toList) []

/-- Candidate collection of `extract_top_articles_on_category`
(lines 148-189): tier 1 over `article` tags, tier 2 only when `candidates`
is still empty, tier 3 only when it is still empty after tier 2. -/
def collectCandidates (pg : CatPage) : List Cand :=
  let candidates := appendFold candOfArticle pg.articles
  if candidates.isEmpty then
    let candidates2 := appendFold candOfHeadingLink pg.headingLinks
    if candidates2.isEmpty then appendFold candOfLongLink pg.longLinks
    else candidates2
  else candidates

/-- The dedup-and-emit loop (lines 191-199).  Returns the emitted rows and
the list of URLs passed to `fetch_first_paragraph`, in order.  `seen` is the
dedup set, `count` the number of rows already emitted; the limit test
`len(rows) >= limit` runs only after a row has been appended. -/
def emitLoop (fetchFn : String → Option String) (limit : Int) :
    List Cand → List String → Nat → List Row × List String
  | [], _, _ => ([], [])
  | (title, hrefOpt) :: rest, seen, count =>
    match hrefOpt with
    | none => emitLoop fetchFn limit rest seen count
    | some h =>
      if h = "" ∨ h ∈ seen then emitLoop fetchFn limit rest seen count
      else
        let summary := fetchFn h
        let row : Row := { title := title, summary := summary.getD "", url := h }
        if limit ≤ (count : Int) + 1 then ([row], [h])
        else
          let res := emitLoop fetchFn limit rest (h :: seen) (count + 1)
          (row :: res.1, h :: res.2)

/-- `extract_top_articles_on_category` (lines 135-201): a navigation failure
returns the empty row list; otherwise candidates are collected and the
dedup-and-emit loop runs.  The second component is the fetch log (which
article URLs were navigated to for summaries). -/
def extract_top_articles_on_category (w : World) (category_url : String)
    (limit : Int) : List Row × List String :=
  let pg := w.cat category_url
  if pg.navOk then
    emitLoop (fun h => fetch_first_paragraph (w.art h)) limit (collectCandidates pg) [] 0
  else ([], [])

/-- The body of one iteration of the category loop in `main` (lines 245-263):
resolve the category (the http test at line 248 bypasses
`find_category_url`), skip on a falsy URL, otherwise extract and tag each row
with the requested label.  An exception escaping resolution is the `Except`
error. -/
def processItem (w : World) (limit : Int) (item : String) :
    Except Unit (List Record) :=
  match (if pyStartsWith (pyLower item) "http" then Except.ok (some item)
         else find_category_url w.homeNavOk w.homeAnchors item) with
  | Except.error e => Except.error e
  | Except.ok none => Except.ok []
  | Except.ok (some url) =>
    if url = "" then Except.ok []
    else
      Except.ok ((extract_top_articles_on_category w url limit).1.map fun r =>
        { category := item, title := r.title, summary := r.summary, url := r.url })

/-- The category loop of `main` inside the `try` block: on the first
escaping exception the loop stops with the records accumulated so far. -/
def mainLoop (w : World) (limit : Int) :
    List String → List Record → Bool × List Record
  | [], acc => (false, acc)
  | item :: rest, acc =>
    match processItem w limit item with
    | Except.error _ => (true, acc)
    | Except.ok recs => mainLoop w limit rest (acc ++ recs)

/-- `main` (lines 238-272) for a given item list: the `finally` block always
attempts `driver.quit()` (swallowing its errors), and `write_csv(aggregated)`
at line 271 stands after the try/finally statement, so it runs only when no
exception escaped the loop. -/
def mainRun (w : World) (items : List String) (limit : Int) : MainOutcome :=
  match mainLoop w limit items [] with
  | (false, agg) =>
    { crashed := false, releaseAttempted := true, aggregated := agg, writes := [agg] }
  | (true, agg) =>
    { crashed := true, releaseAttempted := true, aggregated := agg, writes := [] }


/-! ## Tier decomposition -/

/-- What tier 1 alone produces from the `article` containers. -/
def tier1Cands (arts : List ArtContainer) : List Cand := arts.filterMap candOfArticle

/-- What tier 2 alone produces from the heading links in main content. -/
def tier2Cands (links : List LinkRead) : List Cand := links.filterMap candOfHeadingLink

/-- What tier 3 alone produces from all page links. -/
def tier3Cands (links : List LinkRead) : List Cand := links.filterMap candOfLongLink

theorem foldl_append_toList (g : α → Option Cand) (l : List α) (acc : List Cand) :
    l.foldl (fun acc a => acc ++ (g a).toList) acc = acc ++ l.filterMap g := by
  induction l generalizing acc with
  | nil => simp
  | cons a l ih =>
    simp only [List.foldl_cons, List.filterMap_cons]
    cases h : g a with
    | none => simpa [h] using ih acc
    | some c => simp [h, ih (acc ++ [c])]

theorem appendFold_eq_filterMap (g : α → Option Cand) (l : List α) :
    appendFold g l = l.filterMap g := by
  simpa using foldl_append_toList g l []

/-- Claim C5: exactly one extraction tier contributes candidates per page:
tier 2 runs only when tier 1 produced zero candidates, tier 3 only when
tier 2 also produced zero, and results of different tiers are never merged
(the collected list always equals the output of a single tier). -/
theorem collectCandidates_single_tier (pg : CatPage) :
    (tier1Cands pg.articles ≠ [] → collectCandidates pg = tier1Cands pg.articles) ∧
    (tier1Cands pg.articles = [] → tier2Cands pg.headingLinks ≠ [] →
      collectCandidates pg = tier2Cands pg.headingLinks) ∧
    (tier1Cands pg.articles = [] → tier2Cands pg.headingLinks = [] →
      collectCandidates pg = tier3Cands pg.longLinks) := by
  refine ⟨fun h1 => ?_, fun h1 h2 => ?_, fun h1 h2 => ?_⟩ <;>
    simp only [collectCandidates, appendFold_eq_filterMap] <;>
    simp [tier1Cands, tier2Cands, tier3Cands, List.isEmpty_iff] at h1 ⊢ <;>
    simp_all [tier1Cands, tier2Cands, tier3Cands]

/-- The synthetic page of the spec: zero article containers, one
heading-wrapped link in main content, and a long-text link that tier 3 would
pick up if it ran. -/
def tier2Page : CatPage :=
  { navOk := true
    articles := []
    headingLinks := [LinkRead.ok "Big headline" (some "http://h2/")]
    longLinks := [LinkRead.ok "This link text is clearly longer than twenty characters" (some "http://t3/")] }

theorem collectCandidates_single_tier_witness :
    tier1Cands tier2Page.articles = [] ∧
    tier2Cands tier2Page.headingLinks ≠ [] ∧
    collectCandidates tier2Page = tier2Cands tier2Page.headingLinks :=
  ⟨rfl, by decide,
    (collectCandidates_single_tier tier2Page).2.1 rfl (by decide)⟩

/-! ## Deduplication and the emit loop -/

/-- The href filter of the dedup loop: `if not href ... continue` discards a
missing or empty href before it can reach the dedup set or the limit. -/
def validHref (c : Cand) : Option String :=
  match c.2 with
  | some h => if h = "" then none else some h
  | none => none

/-- First-occurrence deduplication relative to an already-seen set. -/
def dedupFirstAux (seen : List String) : List String → List String
  | [] => []
  | h :: t =>
    if h ∈ seen then dedupFirstAux seen t
    else h :: dedupFirstAux (h :: seen) t

/-- First-occurrence deduplication of a list of hrefs. -/
def dedupFirst (l : List String) : List String := dedupFirstAux [] l

theorem emitLoop_log (fetchFn : String → Option String) (limit : Int)
    (cands : List Cand) : ∀ (seen : List String) (count : Nat),
    (emitLoop fetchFn limit cands seen count).2 =
      (emitLoop fetchFn limit cands seen count).1.map Row.url := by
  induction cands with
  | nil => intro seen count; rfl
  | cons c rest ih =>
    intro seen count
    obtain ⟨title, hrefOpt⟩ := c
    cases hrefOpt with
    | none => simpa [emitLoop] using ih seen count
    | some h =>
      simp only [emitLoop]
      split
      · exact ih seen count
      · split
        · rfl
        · simp [ih (h :: seen) (count + 1)]

theorem emitLoop_urls (fetchFn : String → Option String) (limit : Int)
    (cands : List Cand) : ∀ (seen : List String) (count : Nat),
    (count : Int) < limit →
    (emitLoop fetchFn limit cands seen count).1.map Row.url =
      (dedupFirstAux seen (cands.filterMap validHref)).take (limit - count).toNat := by
  induction cands with
  | nil => intro seen count _; simp [emitLoop, dedupFirstAux]
  | cons c rest ih =>
    intro seen count hcount
    obtain ⟨title, hrefOpt⟩ := c
    cases hrefOpt with
    | none =>
      simpa [emitLoop, List.filterMap_cons, validHref] using ih seen count hcount
    | some h =>
      by_cases hh : h = ""
      · subst hh
        simpa [emitLoop, List.filterMap_cons, validHref] using ih seen count hcount
      · by_cases hs : h ∈ seen
        · simpa [emitLoop, hh, hs, List.filterMap_cons, validHref, dedupFirstAux]
            using ih seen count hcount
        · by_cases hl : limit ≤ (count : Int) + 1
          · have ht : (limit - (count : Int)).toNat = 1 := by omega
            simp [emitLoop, hh, hs, hl, List.filterMap_cons, validHref, dedupFirstAux, ht]
          · have h2 : ((count + 1 : Nat) : Int) < limit := by push_cast; omega
            have ht : (limit - (count : Int)).toNat =
                (limit - ((count + 1 : Nat) : Int)).toNat + 1 := by push_cast; omega
            simp [emitLoop, hh, hs, hl, List.filterMap_cons, validHref, dedupFirstAux,
              ht, List.take_succ_cons, ih (h :: seen) (count + 1) h2]

theorem emitLoop_small_limit (fetchFn : String → Option String) (limit : Int)
    (cands : List Cand) : ∀ (seen : List String) (count : Nat),
    limit ≤ (count : Int) + 1 →
    (emitLoop fetchFn limit cands seen count).1.map Row.url =
      (dedupFirstAux seen (cands.filterMap validHref)).take 1 := by
  induction cands with
  | nil => intro seen count _; simp [emitLoop, dedupFirstAux]
  | cons c rest ih =>
    intro seen count hl
    obtain ⟨title, hrefOpt⟩ := c
    cases hrefOpt with
    | none =>
      simpa [emitLoop, List.filterMap_cons, validHref] using ih seen count hl
    | some h =>
      by_cases hh : h = ""
      · subst hh
        simpa [emitLoop, List.filterMap_cons, validHref] using ih seen count hl
      · by_cases hs : h ∈ seen
        · simpa [emitLoop, hh, hs, List.filterMap_cons, validHref, dedupFirstAux]
            using ih seen count hl
        · simp [emitLoop, hh, hs, hl, List.filterMap_cons, validHref, dedupFirstAux]

/-! ## Concrete worlds used by witnesses and counterexamples -/

/-- An article page whose navigation fails. -/
def failArtPage : ArticlePage := { navOk := false, find := fun _ => SelRes.noSuch }

/-- A category page with one well-formed article container. -/
def oneArticlePage : CatPage :=
  { navOk := true
    articles := [ArtContainer.ok (some "http://a1/") "A headline" none]
    headingLinks := []
    longLinks := [] }

/-- A category page whose navigation fails. -/
def deadCatPage : CatPage :=
  { navOk := false, articles := [], headingLinks := [], longLinks := [] }

/-- A world in which the home page cannot be navigated to, while the category
URL `http://x/` serves one article. -/
def crashWorld : World :=
  { homeNavOk := false
    homeAnchors := []
    cat := fun u => if u = "http://x/" then oneArticlePage else deadCatPage
    art := fun _ => failArtPage }

/-- The same world with a healthy home page. -/
def okWorld : World := { crashWorld with homeNavOk := true }

/-! ## Dedup, limit and short-circuit of the emit loop -/

/-- Claim C6 (amended): for every candidate list, emitted records are
deduplicated by href with the first occurrence winning; a candidate with a
missing or empty href is discarded without being counted or entering the
dedup set; provided the requested limit is at least 1, the number of emitted
records never exceeds the limit; and exactly the emitted records have their
summaries fetched (candidates past the limit are never fetched). -/
theorem extract_dedup_and_limit (w : World) (category_url : String) (limit : Int)
    (hnav : (w.cat category_url).navOk = true) (hlim : 1 ≤ limit) :
    (extract_top_articles_on_category w category_url limit).1.map Row.url =
      (dedupFirst ((collectCandidates (w.cat category_url)).filterMap validHref)).take
        limit.toNat ∧
    (extract_top_articles_on_category w category_url limit).1.length ≤ limit.toNat ∧
    (extract_top_articles_on_category w category_url limit).2 =
      (extract_top_articles_on_category w category_url limit).1.map Row.url := by
  have h0 : ((0 : Nat) : Int) < limit := by omega
  have hmap := emitLoop_urls (fun h => fetch_first_paragraph (w.art h)) limit
    (collectCandidates (w.cat category_url)) [] 0 h0
  have hx : (extract_top_articles_on_category w category_url limit).1.map Row.url =
      (dedupFirst ((collectCandidates (w.cat category_url)).filterMap validHref)).take
        limit.toNat := by
    simpa [extract_top_articles_on_category, hnav, dedupFirst] using hmap
  refine ⟨hx, ?_, ?_⟩
  · have hlen : (extract_top_articles_on_category w category_url limit).1.length =
        ((extract_top_articles_on_category w category_url limit).1.map Row.url).length := by
      simp
    rw [hlen, hx]
    exact List.length_take_le _ _
  · simp [extract_top_articles_on_category, hnav, emitLoop_log]

theorem extract_dedup_and_limit_witness :
    (okWorld.cat "http://x/").navOk = true ∧ (1 : Int) ≤ 5 ∧
    ((extract_top_articles_on_category okWorld "http://x/" 5).1.map Row.url =
      (dedupFirst ((collectCandidates (okWorld.cat "http://x/")).filterMap validHref)).take
        (5 : Int).toNat ∧
    (extract_top_articles_on_category okWorld "http://x/" 5).1.length ≤ (5 : Int).toNat ∧
    (extract_top_articles_on_category okWorld "http://x/" 5).2 =
      (extract_top_articles_on_category okWorld "http://x/" 5).1.map Row.url) :=
  ⟨by decide, by decide, extract_dedup_and_limit okWorld "http://x/" 5 (by decide) (by decide)⟩

/-- Counterexample to claim C6 as stated: with requested limit `0` and one
surviving candidate, the extractor emits one record, exceeding the limit
(the emptiness test runs only after a row is appended). -/
theorem extract_exceeds_limit_cex :
    (extract_top_articles_on_category okWorld "http://x/" 0).1.length = 1 ∧
    ¬ (((extract_top_articles_on_category okWorld "http://x/" 0).1.length : Int) ≤ 0) := by
  constructor
  · decide
  · decide

/-- Claim C9: with a zero or negative requested limit, extraction on a
category page with at least one surviving candidate emits exactly one record
(the first surviving candidate) and fetches exactly that summary, because the
limit check happens only after a record has been appended. -/
theorem extract_one_on_nonpositive_limit (w : World) (url : String) (limit : Int)
    (hnav : (w.cat url).navOk = true) (hlim : limit ≤ 0)
    (hsurv : dedupFirst ((collectCandidates (w.cat url)).filterMap validHref) ≠ []) :
    (extract_top_articles_on_category w url limit).1.length = 1 ∧
    (extract_top_articles_on_category w url limit).1.map Row.url =
      [(dedupFirst ((collectCandidates (w.cat url)).filterMap validHref)).headD ""] ∧
    (extract_top_articles_on_category w url limit).2 =
      (extract_top_articles_on_category w url limit).1.map Row.url := by
  have hl : limit ≤ ((0 : Nat) : Int) + 1 := by omega
  have hmap := emitLoop_small_limit (fun h => fetch_first_paragraph (w.art h)) limit
    (collectCandidates (w.cat url)) [] 0 hl
  have hx : (extract_top_articles_on_category w url limit).1.map Row.url =
      (dedupFirst ((collectCandidates (w.cat url)).filterMap validHref)).take 1 := by
    simpa [extract_top_articles_on_category, hnav, dedupFirst] using hmap
  obtain ⟨a, t, hd⟩ : ∃ a t,
      dedupFirst ((collectCandidates (w.cat url)).filterMap validHref) = a :: t := by
    cases hcase : dedupFirst ((collectCandidates (w.cat url)).filterMap validHref) with
    | nil => exact absurd hcase hsurv
    | cons a t => exact ⟨a, t, rfl⟩
  rw [hd] at hx
  simp only [List.take_succ_cons, List.take_zero] at hx
  refine ⟨?_, ?_, ?_⟩
  · have : ((extract_top_articles_on_category w url limit).1.map Row.url).length = 1 := by
      rw [hx]; rfl
    simpa using this
  · rw [hx, hd]; rfl
  · simp [extract_top_articles_on_category, hnav, emitLoop_log]

theorem extract_one_on_nonpositive_limit_witness :
    (okWorld.cat "http://x/").navOk = true ∧ (0 : Int) ≤ 0 ∧
    dedupFirst ((collectCandidates (okWorld.cat "http://x/")).filterMap validHref) ≠ [] ∧
    ((extract_top_articles_on_category okWorld "http://x/" 0).1.length = 1 ∧
    (extract_top_articles_on_category okWorld "http://x/" 0).1.map Row.url =
      [(dedupFirst ((collectCandidates (okWorld.cat "http://x/")).filterMap
        validHref)).headD ""] ∧
    (extract_top_articles_on_category okWorld "http://x/" 0).2 =
      (extract_top_articles_on_category okWorld "http://x/" 0).1.map Row.url) :=
  ⟨by decide, by decide, by decide,
    extract_one_on_nonpositive_limit okWorld "http://x/" 0 (by decide) (by decide) (by decide)⟩

/-! ## Summary fetching -/

/-- Amended reading of the selector chain: the first selector whose lookup
yields an element with nonempty stripped text wins; a selector that raises,
or matches an element whose stripped text is empty, is skipped and later
selectors are consulted. -/
def fetchFirstParagraphAmended (pg : ArticlePage) : Option String :=
  if pg.navOk then
    selectors.findSome? fun sel =>
      match pg.find sel with
      | SelRes.found rawText =>
        if pyStrip rawText ≠ "" then some (pyTake (pyFirstLine (pyStrip rawText)) 1000)
        else none
      | _ => none
  else none

/-- Literal reading of claim C7: the first selector that matches at least one
element wins outright, and its stripped text (cut at the first line break,
truncated to 1000 characters) is returned even when empty; later selectors
are never consulted once a selector has matched. -/
def fetchFirstParagraphClaim (pg : ArticlePage) : Option String :=
  if pg.navOk then
    selectors.findSome? fun sel =>
      match pg.find sel with
      | SelRes.found rawText => some (pyTake (pyFirstLine (pyStrip rawText)) 1000)
      | _ => none
  else none

theorem fetchLoop_eq_findSome (find : String → SelRes) (sels : List String) :
    fetchLoop find sels = sels.findSome? fun sel =>
      match find sel with
      | SelRes.found rawText =>
        if pyStrip rawText ≠ "" then some (pyTake (pyFirstLine (pyStrip rawText)) 1000)
        else none
      | _ => none := by
  induction sels with
  | nil => rfl
  | cons sel rest ih =>
    simp only [fetchLoop, List.findSome?]
    cases find sel with
    | noSuch => simpa using ih
    | err => simpa using ih
    | found rawText =>
      by_cases hx : pyStrip rawText = ""
      · simpa [hx] using ih
      · simp [hx]

/-- Claim C7 (amended): the summary fetcher tries its fixed selector list in
order and returns, for the first selector that matches an element with
nonempty stripped text, that text cut at the first line break and truncated
to 1000 characters; a selector that matches only an element with empty
stripped text, or whose read raises, is skipped and later selectors are
consulted. -/
theorem fetch_first_paragraph_amended_spec (pg : ArticlePage) :
    fetch_first_paragraph pg = fetchFirstParagraphAmended pg := by
  unfold fetch_first_paragraph fetchFirstParagraphAmended
  cases h : pg.navOk with
  | false => rfl
  | true => simpa using fetchLoop_eq_findSome pg.find selectors

/-- An article page where the first selector matches an element with
whitespace-only text while the last selector matches a real paragraph. -/
def blankThenTextPage : ArticlePage :=
  { navOk := true
    find := fun s =>
      if s = "p" then SelRes.found "Hello"
      else if s = "article p" then SelRes.found "   "
      else SelRes.noSuch }

/-- Counterexample to claim C7 as stated: on `blankThenTextPage` the first
selector (`article p`) matches an element, yet the code consults later
selectors and returns the text found by `p`, not the empty text of the first
match. -/
theorem fetch_first_paragraph_claim_cex :
    fetch_first_paragraph blankThenTextPage = some "Hello" ∧
    fetchFirstParagraphClaim blankThenTextPage = some "" := by
  constructor
  · decide
  · decide

theorem fetchLoop_none_of_all_noSuch (find : String → SelRes) (sels : List String)
    (h : ∀ sel ∈ sels, find sel = SelRes.noSuch) : fetchLoop find sels = none := by
  induction sels with
  | nil => rfl
  | cons sel rest ih =>
    have hsel : find sel = SelRes.noSuch := h sel (List.mem_cons_self sel rest)
    have hrest : ∀ s ∈ rest, find s = SelRes.noSuch :=
      fun s hs => h s (List.mem_cons_of_mem sel hs)
    simp [fetchLoop, hsel, ih hrest]

theorem emitLoop_summary (fetchFn : String → Option String) (limit : Int)
    (cands : List Cand) : ∀ (seen : List String) (count : Nat) (r : Row),
    r ∈ (emitLoop fetchFn limit cands seen count).1 →
    r.summary = (fetchFn r.url).getD "" := by
  induction cands with
  | nil => intro seen count r hr; simp [emitLoop] at hr
  | cons c rest ih =>
    intro seen count r hr
    obtain ⟨title, hrefOpt⟩ := c
    cases hrefOpt with
    | none =>
      simp only [emitLoop] at hr
      exact ih seen count r hr
    | some h =>
      simp only [emitLoop] at hr
      split at hr
      · exact ih seen count r hr
      · split at hr
        · simp only [List.mem_singleton] at hr
          subst hr
          rfl
        · simp only [List.mem_cons] at hr
          cases hr with
          | inl hr => subst hr; rfl
          | inr hr => exact ih (h :: seen) (count + 1) r hr

/-- Claim C8: the summary fetcher returns absent when navigation fails, and
absent when every selector fails to match; and every emitted row carries as
summary the fetch result with absent normalized to the empty string, so an
absent summary is written as an empty string, never as a null value. -/
theorem fetch_absent_normalized :
    (∀ pg : ArticlePage, pg.navOk = false → fetch_first_paragraph pg = none) ∧
    (∀ pg : ArticlePage, (∀ sel ∈ selectors, pg.find sel = SelRes.noSuch) →
      fetch_first_paragraph pg = none) ∧
    (∀ (w : World) (url : String) (limit : Int) (r : Row),
      r ∈ (extract_top_articles_on_category w url limit).1 →
      r.summary = (fetch_first_paragraph (w.art r.url)).getD "") := by
  refine ⟨?_, ?_, ?_⟩
  · intro pg hnav
    simp [fetch_first_paragraph, hnav]
  · intro pg hsel
    unfold fetch_first_paragraph
    cases hnav : pg.navOk with
    | false => rfl
    | true => simpa using fetchLoop_none_of_all_noSuch pg.find selectors hsel
  · intro w url limit r hr
    unfold extract_top_articles_on_category at hr
    by_cases hnav : (w.cat url).navOk
    · simp only [hnav, if_true] at hr
      exact emitLoop_summary _ limit _ [] 0 r hr
    · simp [hnav] at hr

/-- An article page that navigates but where no selector matches. -/
def noMatchPage : ArticlePage := { navOk := true, find := fun _ => SelRes.noSuch }

theorem fetch_absent_normalized_witness :
    failArtPage.navOk = false ∧
    fetch_first_paragraph failArtPage = none ∧
    fetch_first_paragraph noMatchPage = none ∧
    ({ title := some "A headline", summary := "", url := "http://a1/" } : Row) ∈
      (extract_top_articles_on_category crashWorld "http://x/" 5).1 ∧
    (({ title := some "A headline", summary := "", url := "http://a1/" } : Row)).summary =
      (fetch_first_paragraph (crashWorld.art "http://a1/")).getD "" :=
  ⟨rfl,
    fetch_absent_normalized.1 failArtPage rfl,
    fetch_absent_normalized.2.1 noMatchPage (by decide),
    by decide,
    fetch_absent_normalized.2.2 crashWorld "http://x/" 5 _ (by decide)⟩

/-! ## Category resolution -/

/-- Amended per-anchor test: an anchor contributes the result only when its
stripped text is nonempty, the lowered text contains the needle, and its
href is present and nonempty. -/
def anchorHit (needle : String) (a : LinkRead) : Option String :=
  match a with
  | LinkRead.err => none
  | LinkRead.ok text href =>
    if pyStrip text = "" then none
    else if strContainsSub (pyLower (pyStrip text)) needle then
      match href with
      | some h => if h = "" then none else some h
      | none => none
    else none

theorem scanAnchors_eq_findSome (needle : String) (anchors : List LinkRead) :
    scanAnchors needle anchors = anchors.findSome? (anchorHit needle) := by
  induction anchors with
  | nil => rfl
  | cons a rest ih =>
    cases a with
    | err => simpa [scanAnchors, anchorHit, List.findSome?] using ih
    | ok text href =>
      simp only [scanAnchors, anchorHit, List.findSome?]
      by_cases h1 : pyStrip text = ""
      · simpa [h1] using ih
      · by_cases h2 : strContainsSub (pyLower (pyStrip text)) needle
        · cases href with
          | none => simpa [h1, h2] using ih
          | some h =>
            by_cases h3 : h = ""
            · simpa [h1, h2, h3] using ih
            · simp [h1, h2, h3]
        · simpa [h1, h2] using ih

/-- Claim C3 (amended): for a non-http label, resolution scans the homepage
anchors in document order and returns the href of the first anchor whose
stripped text is nonempty, whose lowered text contains the lowered stripped
label, and whose href is present and nonempty; anchors that match the text
test but lack a truthy href are skipped and the scan continues; with no such
anchor the result is None. -/
theorem find_category_url_first_valid_match (anchors : List LinkRead) (name : String)
    (hname : pyStartsWith (pyLower name) "http" = false) :
    find_category_url true anchors name =
      Except.ok (anchors.findSome? (anchorHit (pyLower (pyStrip name)))) := by
  simp [find_category_url, hname, scanAnchors_eq_findSome]

theorem find_category_url_first_valid_match_witness :
    pyStartsWith (pyLower "Esportes") "http" = false ∧
    find_category_url true
        [LinkRead.ok "Mundo" (some "http://m/"), LinkRead.ok "Esportes" (some "http://e/")]
        "Esportes" =
      Except.ok ([LinkRead.ok "Mundo" (some "http://m/"),
        LinkRead.ok "Esportes" (some "http://e/")].findSome?
          (anchorHit (pyLower (pyStrip "Esportes")))) :=
  ⟨by decide,
    find_category_url_first_valid_match
      [LinkRead.ok "Mundo" (some "http://m/"), LinkRead.ok "Esportes" (some "http://e/")]
      "Esportes" (by decide)⟩

/-- Literal reading of claim C3: return the URL of the first anchor (with
nonempty stripped visible text) whose lowered text contains the lowered
label, whatever that href is; None only when no anchor matches. -/
def findCategoryUrlClaim (anchors : List LinkRead) (name : String) : Option String :=
  if pyStartsWith (pyLower name) "http" then some name
  else
    match anchors.find? (fun a =>
      match a with
      | LinkRead.ok text _ =>
        pyStrip text != "" &&
          strContainsSub (pyLower (pyStrip text)) (pyLower (pyStrip name))
      | LinkRead.err => false) with
    | some (LinkRead.ok _ href) => href
    | some LinkRead.err => none
    | none => none

/-- Counterexample to claim C3 as stated: the first anchor whose text matches
the label has no href, so the code skips it and returns the href of a later
matching anchor, while the claim demands the first matching anchor (whose URL
is absent here). -/
theorem find_category_url_claim_cex :
    find_category_url true
        [LinkRead.ok "News" none, LinkRead.ok "More News" (some "http://u/")] "news" =
      Except.ok (some "http://u/") ∧
    findCategoryUrlClaim
        [LinkRead.ok "News" none, LinkRead.ok "More News" (some "http://u/")] "news" =
      none := by
  constructor
  · rfl
  · decide

/-- Claim C4: for every input whose lowercased form starts with http,
resolution returns the input unchanged, for every state of the homepage and
of the browser session (in particular when home navigation would fail), so no
page load or DOM query is attempted. -/
theorem find_category_url_http_passthrough (name : String)
    (hname : pyStartsWith (pyLower name) "http" = true) :
    ∀ (homeNavOk : Bool) (anchors : List LinkRead),
      find_category_url homeNavOk anchors name = Except.ok (some name) := by
  intro homeNavOk anchors
  simp [find_category_url, hname]

theorem find_category_url_http_passthrough_witness :
    pyStartsWith (pyLower "HTTPS://site.example/x") "http" = true ∧
    find_category_url false [] "HTTPS://site.example/x" =
      Except.ok (some "HTTPS://site.example/x") :=
  ⟨by decide, find_category_url_http_passthrough "HTTPS://site.example/x" (by decide) false []⟩

/-! ## Nonempty title and url invariants -/

/-- A candidate whose href is truthy always carries a truthy title. -/
def CandInv (c : Cand) : Prop :=
  ∀ h : String, c.2 = some h → h ≠ "" → ∃ t, c.1 = some t ∧ t ≠ ""

/-- An output record has a present nonempty title and a nonempty url. -/
def RecordOk (rec : Record) : Prop :=
  (∃ t, rec.title = some t ∧ t ≠ "") ∧ rec.url ≠ ""

theorem pyTruthy_eq_true {o : Option String} (h : pyTruthy o = true) :
    ∃ s, o = some s ∧ s ≠ "" := by
  cases o with
  | none => simp [pyTruthy] at h
  | some s => exact ⟨s, rfl, by simpa [pyTruthy] using h⟩

theorem pyOrStr_valid (title : Option String) {h : String} (hh : h ≠ "") :
    ∃ t, pyOrStr title (some h) = some t ∧ t ≠ "" := by
  by_cases ht : pyTruthy title = true
  · obtain ⟨s, rfl, hs⟩ := pyTruthy_eq_true ht
    exact ⟨s, by simp [pyOrStr, ht], hs⟩
  · exact ⟨h, by simp [pyOrStr, ht], hh⟩

theorem candOfArticle_inv (a : ArtContainer) (c : Cand)
    (hc : candOfArticle a = some c) : CandInv c := by
  cases a with
  | err => simp [candOfArticle] at hc
  | ok href linkText heading =>
    simp only [candOfArticle, Option.some_inj] at hc
    intro h hhref hh
    subst hc
    simp only at hhref
    subst hhref
    exact pyOrStr_valid _ hh

theorem candOfHeadingLink_inv (a : LinkRead) (c : Cand)
    (hc : candOfHeadingLink a = some c) : CandInv c := by
  cases a with
  | err => simp [candOfHeadingLink] at hc
  | ok text href =>
    simp only [candOfHeadingLink, Option.some_inj] at hc
    intro h hhref hh
    subst hc
    simp only at hhref
    subst hhref
    exact pyOrStr_valid _ hh

theorem candOfLongLink_inv (a : LinkRead) (c : Cand)
    (hc : candOfLongLink a = some c) : CandInv c := by
  cases a with
  | err => simp [candOfLongLink] at hc
  | ok text href =>
    cases href with
    | none => simp [candOfLongLink] at hc
    | some h0 =>
      simp only [candOfLongLink] at hc
      split at hc
      · rename_i hcond
        simp only [Option.some_inj] at hc
        intro h hhref hh
        subst hc
        exact ⟨pyStrip text, rfl, hcond.1⟩
      · simp at hc

theorem collectCandidates_inv (pg : CatPage) :
    ∀ c ∈ collectCandidates pg, CandInv c := by
  intro c hc
  simp only [collectCandidates, appendFold_eq_filterMap] at hc
  split at hc
  · split at hc
    · obtain ⟨a, _, ha⟩ := List.mem_filterMap.mp hc
      exact candOfLongLink_inv a c ha
    · obtain ⟨a, _, ha⟩ := List.mem_filterMap.mp hc
      exact candOfHeadingLink_inv a c ha
  · obtain ⟨a, _, ha⟩ := List.mem_filterMap.mp hc
    exact candOfArticle_inv a c ha

theorem emitLoop_rows_inv (fetchFn : String → Option String) (limit : Int)
    (cands : List Cand) (hinv : ∀ c ∈ cands, CandInv c) :
    ∀ (seen : List String) (count : Nat) (r : Row),
    r ∈ (emitLoop fetchFn limit cands seen count).1 →
    (∃ t, r.title = some t ∧ t ≠ "") ∧ r.url ≠ "" := by
  induction cands with
  | nil => intro seen count r hr; simp [emitLoop] at hr
  | cons c rest ih =>
    have hc : CandInv c := hinv c (List.mem_cons_self c rest)
    have hrest : ∀ x ∈ rest, CandInv x := fun x hx => hinv x (List.mem_cons_of_mem c hx)
    intro seen count r hr
    obtain ⟨title, hrefOpt⟩ := c
    cases hrefOpt with
    | none =>
      simp only [emitLoop] at hr
      exact ih hrest seen count r hr
    | some h =>
      simp only [emitLoop] at hr
      split at hr
      · exact ih hrest seen count r hr
      · rename_i hskip
        have hh : h ≠ "" := fun he => hskip (Or.inl he)
        have htitle : ∃ t, title = some t ∧ t ≠ "" := hc h rfl hh
        split at hr
        · simp only [List.mem_singleton] at hr
          subst hr
          exact ⟨htitle, hh⟩
        · simp only [List.mem_cons] at hr
          cases hr with
          | inl hr => subst hr; exact ⟨htitle, hh⟩
          | inr hr => exact ih hrest (h :: seen) (count + 1) r hr

theorem extract_rows_inv (w : World) (url : String) (limit : Int) :
    ∀ r ∈ (extract_top_articles_on_category w url limit).1,
    (∃ t, r.title = some t ∧ t ≠ "") ∧ r.url ≠ "" := by
  intro r hr
  unfold extract_top_articles_on_category at hr
  by_cases hnav : (w.cat url).navOk
  · simp only [hnav, if_true] at hr
    exact emitLoop_rows_inv _ limit _ (collectCandidates_inv _) [] 0 r hr
  · simp [hnav] at hr

theorem processItem_rows (w : World) (limit : Int) (item : String)
    (recs : List Record) (hp : processItem w limit item = Except.ok recs) :
    ∀ rec ∈ recs, RecordOk rec := by
  unfold processItem at hp
  split at hp
  · cases hp
  · cases hp
    intro rec hrec
    simp at hrec
  · split at hp
    · cases hp
      intro rec hrec
      simp at hrec
    · cases hp
      intro rec hrec
      rename_i url _ _
      obtain ⟨r, hr, hrec⟩ := List.mem_map.mp hrec
      obtain ⟨ht, hu⟩ := extract_rows_inv w url limit r hr
      subst hrec
      exact ⟨ht, hu⟩

theorem mainLoop_records (w : World) (limit : Int) :
    ∀ (items : List String) (acc : List Record),
    (∀ r ∈ acc, RecordOk r) →
    ∀ rec ∈ (mainLoop w limit items acc).2, RecordOk rec := by
  intro items
  induction items with
  | nil => intro acc hacc rec hrec; exact hacc rec hrec
  | cons item rest ih =>
    intro acc hacc rec hrec
    simp only [mainLoop] at hrec
    cases hp : processItem w limit item with
    | error e =>
      rw [hp] at hrec
      exact hacc rec hrec
    | ok recs =>
      rw [hp] at hrec
      refine ih (acc ++ recs) ?_ rec hrec
      intro r hr
      cases List.mem_append.mp hr with
      | inl h => exact hacc r h
      | inr h => exact processItem_rows w limit item recs hp r h

/-- Claim C10: every record in the aggregated output carries a present,
nonempty title and a nonempty url: the title falls back to the href in
every tier and a candidate survives deduplication only with a nonempty
href, so the title is never empty, strictly stronger than the spec text
that allows an empty title. -/
theorem aggregated_title_url_nonempty (w : World) (items : List String) (limit : Int)
    (rec : Record) (hmem : rec ∈ (mainRun w items limit).aggregated) :
    (∃ t, rec.title = some t ∧ t ≠ "") ∧ rec.url ≠ "" := by
  have hagg : (mainRun w items limit).aggregated = (mainLoop w limit items []).2 := by
    unfold mainRun
    rcases hm : mainLoop w limit items [] with ⟨b, agg⟩
    cases b <;> simp
  rw [hagg] at hmem
  exact mainLoop_records w limit items [] (by simp) rec hmem

/-- The single record the healthy world produces for `http://x/`. -/
def sampleRecord : Record :=
  { category := "http://x/", title := some "A headline", summary := "", url := "http://a1/" }

theorem aggregated_title_url_nonempty_witness :
    (sampleRecord ∈ (mainRun okWorld ["http://x/"] 5).aggregated) ∧
    ((∃ t, sampleRecord.title = some t ∧ t ≠ "") ∧ sampleRecord.url ≠ "") :=
  ⟨by decide, aggregated_title_url_nonempty okWorld ["http://x/"] 5 sampleRecord (by decide)⟩

/-! ## Orchestration: session release, write, crash propagation -/

/-- Claim C1 (amended): on every exit path of the category loop the browser
session release is attempted (release-time errors are swallowed by the
source), and the accumulated records are handed to the tabular writer exactly
once on normal completion of all categories — but zero times when an
unrecoverable session failure escapes the loop, because the write statement
stands after the try/finally and is skipped by the propagating exception. -/
theorem release_always_write_on_success (w : World) (items : List String) (limit : Int) :
    (mainRun w items limit).releaseAttempted = true ∧
    ((mainRun w items limit).crashed = false →
      (mainRun w items limit).writes = [(mainRun w items limit).aggregated]) ∧
    ((mainRun w items limit).crashed = true → (mainRun w items limit).writes = []) := by
  unfold mainRun
  rcases hm : mainLoop w limit items [] with ⟨b, agg⟩
  cases b <;> simp

theorem release_always_write_on_success_witness :
    (mainRun okWorld ["http://x/"] 5).crashed = false ∧
    (mainRun okWorld ["http://x/"] 5).writes = [(mainRun okWorld ["http://x/"] 5).aggregated] :=
  ⟨by decide, (release_always_write_on_success okWorld ["http://x/"] 5).2.1 (by decide)⟩

/-- Counterexample to claim C1 as stated: in `crashWorld` the first category
is extracted, then resolution of the second raises while loading the home
page; the session release still runs, but the accumulated (nonempty) records
are never handed to the tabular writer. -/
theorem write_skipped_on_crash_cex :
    (mainRun crashWorld ["http://x/", "News"] 5).crashed = true ∧
    (mainRun crashWorld ["http://x/", "News"] 5).releaseAttempted = true ∧
    (mainRun crashWorld ["http://x/", "News"] 5).aggregated ≠ [] ∧
    (mainRun crashWorld ["http://x/", "News"] 5).writes = [] := by
  refine ⟨by decide, by decide, by decide, by decide⟩

/-- The records one category contributes when its processing does not raise. -/
def categoryRecords (w : World) (limit : Int) (item : String) : List Record :=
  match processItem w limit item with
  | Except.ok recs => recs
  | Except.error _ => []

theorem find_category_url_true_ok (anchors : List LinkRead) (name : String) :
    ∃ o, find_category_url true anchors name = Except.ok o := by
  unfold find_category_url
  split
  · exact ⟨some name, rfl⟩
  · simp

theorem processItem_ok (w : World) (limit : Int) (item : String)
    (hnav : w.homeNavOk = true) :
    processItem w limit item = Except.ok (categoryRecords w limit item) := by
  unfold categoryRecords
  cases hp : processItem w limit item with
  | ok recs => rfl
  | error e =>
    exfalso
    unfold processItem at hp
    rw [hnav] at hp
    split at hp
    · rename_i hsplit
      split at hsplit
      · cases hsplit
      · obtain ⟨o, ho⟩ := find_category_url_true_ok w.homeAnchors item
        rw [ho] at hsplit
        cases hsplit
    · cases hp
    · split at hp <;> cases hp

theorem mainLoop_concat (w : World) (limit : Int) (hnav : w.homeNavOk = true) :
    ∀ (items : List String) (acc : List Record),
    mainLoop w limit items acc =
      (false, acc ++ items.flatMap (categoryRecords w limit)) := by
  intro items
  induction items with
  | nil => intro acc; simp [mainLoop]
  | cons item rest ih =>
    intro acc
    simp only [mainLoop, processItem_ok w limit item hnav, List.flatMap_cons]
    rw [ih (acc ++ categoryRecords w limit item)]
    simp

/-- Claim C2 (amended): as long as the shared session can load the home page,
no category failure aborts the run: the run completes without crashing and
the output is the concatenation of each category's own records, so one
category's failure never affects another category's output.  (A driver
exception while loading the home page during resolution, by contrast,
escapes the loop and aborts the remaining categories — see the
counterexample.) -/
theorem run_concat_per_category (w : World) (items : List String) (limit : Int)
    (hnav : w.homeNavOk = true) :
    (mainRun w items limit).crashed = false ∧
    (mainRun w items limit).aggregated = items.flatMap (categoryRecords w limit) ∧
    (mainRun w items limit).writes = [items.flatMap (categoryRecords w limit)] := by
  unfold mainRun
  rw [mainLoop_concat w limit hnav items []]
  simp

theorem run_concat_per_category_witness :
    okWorld.homeNavOk = true ∧
    ((mainRun okWorld ["http://x/", "nolink"] 5).crashed = false ∧
    (mainRun okWorld ["http://x/", "nolink"] 5).aggregated =
      ["http://x/", "nolink"].flatMap (categoryRecords okWorld 5) ∧
    (mainRun okWorld ["http://x/", "nolink"] 5).writes =
      [["http://x/", "nolink"].flatMap (categoryRecords okWorld 5)]) :=
  ⟨rfl, run_concat_per_category okWorld ["http://x/", "nolink"] 5 rfl⟩

/-- Counterexample to claim C2 as stated: in `crashWorld` a driver exception
is raised while loading the home page during resolution of the first
category; the run aborts and the second category — which on its own would
contribute one record — is never processed, so its output is lost. -/
theorem crash_aborts_remaining_categories_cex :
    (mainRun crashWorld ["News", "http://x/"] 5).crashed = true ∧
    (mainRun crashWorld ["News", "http://x/"] 5).aggregated = [] ∧
    (mainRun crashWorld ["http://x/"] 5).aggregated ≠ [] := by
  refine ⟨by decide, by decide, by decide⟩

end Scraper
